import Mathlib

/-!
Verification of the quarter-calculator in src/main.rs (corporate-clock).

The program's core is the pure function generate_coordinates, mapping a
chrono DateTime with a fixed UTC offset to a CorporateCoordinates record.
We embed the chrono operations it uses (proleptic-Gregorian calendar with
chrono's year range, nanosecond-precision naive datetimes, fixed-offset
timestamps) and the function itself, with every fallible chrono call
(each Rust unwrap) modelled as an Option; a result of none models a panic.

Floating-point remarks: the source computes the quarter as
(month as f64 / 3.0).ceil() as u32 and the week count as
(num_days as f64 / 7.0).floor() as u32.  For every reachable input these
float computations are exact (the operands are tiny integers divided by 3
or 7, far below 2^53, and the quotients are never within rounding error of
an integer they do not equal), so they are embedded as integer ceiling
and floor divisions.  Rust int-to-int casts (as u32 on i64) truncate
mod 2^32 and float-to-int casts saturate; both are modelled explicitly.
-/

namespace CorporateClock

/-- chrono's minimal representable year (i32::MIN >> 13). -/
def MIN_YEAR : Int := -262144

/-- chrono's maximal representable year (i32::MAX >> 13). -/
def MAX_YEAR : Int := 262143

/-- Nanoseconds in a civil day. -/
def nsPerDay : Int := 86400000000000

/-- Proleptic-Gregorian leap-year test, as in chrono. -/
def isLeapYear (y : Int) : Bool :=
  (y % 4 == 0 && y % 100 != 0) || (y % 400 == 0)

/-- 1 in a leap year, 0 otherwise. -/
def leapN (y : Int) : Nat := if isLeapYear y then 1 else 0

/-- Length in days of month m of year y (0 for an invalid month index). -/
def daysInMonth (y : Int) : Nat → Nat
  | 1 => 31
  | 2 => 28 + leapN y
  | 3 => 31
  | 4 => 30
  | 5 => 31
  | 6 => 30
  | 7 => 31
  | 8 => 31
  | 9 => 30
  | 10 => 31
  | 11 => 30
  | 12 => 31
  | _ => 0

/-- Days in the months of year y strictly before month m. -/
def monthDaysBefore (y : Int) : Nat → Nat
  | 1 => 0
  | 2 => 31
  | 3 => 59 + leapN y
  | 4 => 90 + leapN y
  | 5 => 120 + leapN y
  | 6 => 151 + leapN y
  | 7 => 181 + leapN y
  | 8 => 212 + leapN y
  | 9 => 243 + leapN y
  | 10 => 273 + leapN y
  | 11 => 304 + leapN y
  | 12 => 334 + leapN y
  | _ => 365 + leapN y

/-- A civil calendar date (chrono NaiveDate): year, month (1-12), day (1-based). -/
structure Date where
  year : Int
  month : Nat
  day : Nat
deriving DecidableEq

/-- A naive datetime (chrono NaiveDateTime): a date plus nanoseconds since midnight. -/
structure NaiveDT where
  date : Date
  nano : Nat
deriving DecidableEq

/-- A fixed-offset datetime (chrono DateTime with FixedOffset): the local naive
datetime together with the UTC offset in seconds.  The instant it denotes is
the local datetime minus the offset. -/
structure DateTimeFO where
  ldt : NaiveDT
  offset : Int
deriving DecidableEq

/-- 1-based ordinal of the date within its year (Jan 1 is 1). -/
def ordinalOfDate (d : Date) : Nat := monthDaysBefore d.year d.month + d.day

/-- Rata-die day number of a proleptic-Gregorian date (0001-01-01 is day 1);
this is the day counting that underlies chrono's date arithmetic. -/
def toDays (d : Date) : Int :=
  365 * (d.year - 1) + (d.year - 1) / 4 - (d.year - 1) / 100 + (d.year - 1) / 400 +
    (ordinalOfDate d : Int)

/-- Nanoseconds of a naive datetime on the rata-die timeline. -/
def rankDT (t : NaiveDT) : Int := toDays t.date * nsPerDay + (t.nano : Int)

/-- Nanoseconds of the UTC instant denoted by a fixed-offset datetime;
two DateTimeFO values compare (and subtract) as these instants. -/
def utcRank (ts : DateTimeFO) : Int := rankDT ts.ldt - ts.offset * 1000000000

/-- Least representable naive-datetime rank (chrono NaiveDateTime::MIN). -/
def rankMin : Int := toDays ⟨MIN_YEAR, 1, 1⟩ * nsPerDay

/-- Greatest representable naive-datetime rank (chrono NaiveDateTime::MAX). -/
def rankMax : Int := toDays ⟨MAX_YEAR, 12, 31⟩ * nsPerDay + (nsPerDay - 1)

/-- Validity of a civil date: month and day in range, year in chrono's range. -/
def ValidDate (d : Date) : Prop :=
  1 ≤ d.month ∧ d.month ≤ 12 ∧ 1 ≤ d.day ∧ d.day ≤ daysInMonth d.year d.month ∧
    MIN_YEAR ≤ d.year ∧ d.year ≤ MAX_YEAR

instance (d : Date) : Decidable (ValidDate d) := by
  unfold ValidDate; infer_instance

/-- A valid chrono DateTime with fixed offset: valid local date, time of day
below one day, offset strictly between -86400 and 86400 seconds (chrono
FixedOffset range), and both the local datetime and the UTC instant inside
chrono's representable datetime range. -/
def ValidTs (ts : DateTimeFO) : Prop :=
  ValidDate ts.ldt.date ∧ ts.ldt.nano < 86400000000000 ∧
    -86400 < ts.offset ∧ ts.offset < 86400 ∧
    rankMin ≤ utcRank ts ∧ utcRank ts ≤ rankMax

instance (ts : DateTimeFO) : Decidable (ValidTs ts) := by
  unfold ValidTs; infer_instance

/-- chrono NaiveDate::from_ymd_opt: some iff the date is valid. -/
def from_ymd_opt (y : Int) (m d : Nat) : Option Date :=
  if ValidDate ⟨y, m, d⟩ then some ⟨y, m, d⟩ else none

/-- chrono NaiveDate::and_hms_nano_opt: attach a time of day. -/
def and_hms_nano_opt (d : Date) (h mi s n : Nat) : Option NaiveDT :=
  if h < 24 ∧ mi < 60 ∧ s < 60 ∧ n < 2000000000 then
    some ⟨d, ((h * 60 + mi) * 60 + s) * 1000000000 + n⟩
  else none

/-- chrono NaiveDateTime::checked_add_months: add whole months, clamping the
day to the length of the target month; none if the target year leaves
chrono's range. -/
def checked_add_months (t : NaiveDT) (n : Nat) : Option NaiveDT :=
  let tot := (t.date.month - 1) + n
  let y2 := t.date.year + (tot / 12 : Nat)
  let m2 := tot % 12 + 1
  let d2 := min t.date.day (daysInMonth y2 m2)
  if MIN_YEAR ≤ y2 ∧ y2 ≤ MAX_YEAR then some ⟨⟨y2, m2, d2⟩, t.nano⟩ else none

/-- The calendar day before a date; none below chrono's range. -/
def predDate (d : Date) : Option Date :=
  if 2 ≤ d.day then some ⟨d.year, d.month, d.day - 1⟩
  else if 2 ≤ d.month then some ⟨d.year, d.month - 1, daysInMonth d.year (d.month - 1)⟩
  else if MIN_YEAR < d.year then some ⟨d.year - 1, 12, 31⟩
  else none

/-- chrono NaiveDateTime::checked_sub_days: step the date back n days. -/
def checked_sub_days (t : NaiveDT) : Nat → Option NaiveDT
  | 0 => some t
  | n + 1 =>
    (checked_sub_days t n).bind fun t2 =>
      (predDate t2.date).map fun d => ⟨d, t2.nano⟩

/-- chrono FixedOffset::from_local_datetime(..) for a fixed offset: always a
single result, provided the corresponding UTC instant stays representable. -/
def from_local_datetime (off : Int) (l : NaiveDT) : Option DateTimeFO :=
  if rankMin ≤ rankDT l - off * 1000000000 ∧ rankDT l - off * 1000000000 ≤ rankMax then
    some ⟨l, off⟩
  else none

/-- chrono signed_duration_since, in nanoseconds (difference of UTC instants). -/
def duration_nanos (a b : DateTimeFO) : Int := utcRank a - utcRank b

/-- chrono Duration::num_days: whole days in a duration, truncated toward zero. -/
def num_days (nanos : Int) : Int :=
  if 0 ≤ nanos then nanos / nsPerDay else -((-nanos) / nsPerDay)

/-- Rust (i64) as u32: truncation mod 2^32. -/
def u32_of_int (x : Int) : Nat := (x % 4294967296).toNat

/-- Rust (f64) as u32 applied to a mathematical integer: saturating cast. -/
def u32_of_float (x : Int) : Nat := if x < 0 then 0 else min x.toNat 4294967295

/-- The quarter computed by the source: (month as f64 / 3.0).ceil() as u32,
exact integer ceiling division for months 1-12. -/
def quarterOf (m : Nat) : Nat := (m + 2) / 3

/-- The output record of the program (struct CorporateCoordinates). -/
structure CorporateCoordinates where
  generation_time : DateTimeFO
  year : String
  quarter : Nat
  start_of_quarter : DateTimeFO
  end_of_quarter : DateTimeFO
  full_week_of_quarter_done : Nat
  weeks_in_quarter : Nat
  days_left_in_quarter : Nat
  days_in_quarter : Nat
deriving DecidableEq

/-- Shallow embedding of fn generate_coordinates (src/main.rs lines 17-58).
Every Rust .unwrap() is an Option bind; none models a panic. -/
def generate_coordinates (now : DateTimeFO) : Option CorporateCoordinates :=
  let quarter : Nat := quarterOf now.ldt.date.month
  (from_ymd_opt now.ldt.date.year 1 1).bind fun soy_date =>
  (and_hms_nano_opt soy_date 0 0 0 0).bind fun start_of_year =>
  (checked_add_months start_of_year ((quarter - 1) * 3)).bind fun soq_local =>
  (from_local_datetime now.offset soq_local).bind fun start_of_quarter =>
  (checked_add_months start_of_year (quarter * 3)).bind fun eoq_plus =>
  (checked_sub_days eoq_plus 1).bind fun eoq_local =>
  (from_local_datetime now.offset eoq_local).map fun end_of_quarter =>
  { generation_time := now
    year := toString now.ldt.date.year
    quarter := quarter
    start_of_quarter := start_of_quarter
    end_of_quarter := end_of_quarter
    full_week_of_quarter_done :=
      u32_of_float (num_days (duration_nanos now start_of_quarter) / 7)
    weeks_in_quarter := 13
    days_left_in_quarter :=
      u32_of_int (num_days (duration_nanos end_of_quarter now) + 1)
    days_in_quarter :=
      u32_of_int (num_days (duration_nanos end_of_quarter start_of_quarter)) }

/-- First day of the quarter containing the given timestamp. -/
def startDateOf (ts : DateTimeFO) : Date :=
  ⟨ts.ldt.date.year, 3 * quarterOf ts.ldt.date.month - 2, 1⟩

/-- Last day of the quarter containing the given timestamp. -/
def endDateOf (ts : DateTimeFO) : Date :=
  ⟨ts.ldt.date.year, 3 * quarterOf ts.ldt.date.month,
    daysInMonth ts.ldt.date.year (3 * quarterOf ts.ldt.date.month)⟩

/-- Midnight at the start of the quarter, in the input's offset. -/
def startTsOf (ts : DateTimeFO) : DateTimeFO := ⟨⟨startDateOf ts, 0⟩, ts.offset⟩

/-- Midnight on the last day of the quarter, in the input's offset. -/
def endTsOf (ts : DateTimeFO) : DateTimeFO := ⟨⟨endDateOf ts, 0⟩, ts.offset⟩

/-- Days elapsed in the quarter at the input's date (whole calendar days
from the quarter's first day to the input's date). -/
def elapsedDays (ts : DateTimeFO) : Nat :=
  ordinalOfDate ts.ldt.date - ordinalOfDate (startDateOf ts)

/-- Whole calendar days from the input's date to the quarter's last day. -/
def remainingDays (ts : DateTimeFO) : Nat :=
  ordinalOfDate (endDateOf ts) - ordinalOfDate ts.ldt.date

/-- Whole calendar days from the quarter's first day to its last day. -/
def quarterDays (ts : DateTimeFO) : Nat :=
  ordinalOfDate (endDateOf ts) - ordinalOfDate (startDateOf ts)

/-- Closed form of the record generate_coordinates returns when it succeeds. -/
def coordsOf (ts : DateTimeFO) : CorporateCoordinates :=
  { generation_time := ts
    year := toString ts.ldt.date.year
    quarter := quarterOf ts.ldt.date.month
    start_of_quarter := startTsOf ts
    end_of_quarter := endTsOf ts
    full_week_of_quarter_done :=
      u32_of_float (num_days (duration_nanos ts (startTsOf ts)) / 7)
    weeks_in_quarter := 13
    days_left_in_quarter :=
      u32_of_int (num_days (duration_nanos (endTsOf ts) ts) + 1)
    days_in_quarter :=
      u32_of_int (num_days (duration_nanos (endTsOf ts) (startTsOf ts))) }

/-- 1999-01-01T16:39:57+00:00 (16:39:57 is 59997 seconds after midnight). -/
def ts1999Jan1 : DateTimeFO := ⟨⟨⟨1999, 1, 1⟩, 59997000000000⟩, 0⟩

/-- 1999-02-01T16:39:57+00:00. -/
def ts1999Feb1 : DateTimeFO := ⟨⟨⟨1999, 2, 1⟩, 59997000000000⟩, 0⟩

/-- 1999-04-01T16:39:57+00:00. -/
def ts1999Apr1 : DateTimeFO := ⟨⟨⟨1999, 4, 1⟩, 59997000000000⟩, 0⟩

/-- 1999-05-01T16:39:57+00:00. -/
def ts1999May1 : DateTimeFO := ⟨⟨⟨1999, 5, 1⟩, 59997000000000⟩, 0⟩

/-- 1999-06-30T16:39:57+00:00. -/
def ts1999Jun30 : DateTimeFO := ⟨⟨⟨1999, 6, 30⟩, 59997000000000⟩, 0⟩

/-- 1999-08-01T16:39:57+00:00. -/
def ts1999Aug1 : DateTimeFO := ⟨⟨⟨1999, 8, 1⟩, 59997000000000⟩, 0⟩

/-- 1999-11-01T16:39:57+00:00. -/
def ts1999Nov1 : DateTimeFO := ⟨⟨⟨1999, 11, 1⟩, 59997000000000⟩, 0⟩

/-- 2000-02-01T16:39:57+00:00 (2000 is a leap year). -/
def ts2000Feb1 : DateTimeFO := ⟨⟨⟨2000, 2, 1⟩, 59997000000000⟩, 0⟩

/-- 1999-04-01T00:00:00+00:00, the exact first instant of 1999 Q2. -/
def ts1999Q2start : DateTimeFO := ⟨⟨⟨1999, 4, 1⟩, 0⟩, 0⟩

/-- 262143-10-01T00:00:00+00:00: a valid timestamp in the last quarter of
chrono's maximal year. -/
def tsMaxQ4 : DateTimeFO := ⟨⟨⟨262143, 10, 1⟩, 0⟩, 0⟩

theorem leapN_le_one (y : Int) : leapN y ≤ 1 := by
  unfold leapN; split <;> omega

theorem leapN_spec (y : Int) :
    leapN y = 1 ↔ ((y % 4 = 0 ∧ ¬(y % 100 = 0)) ∨ y % 400 = 0) := by
  unfold leapN isLeapYear
  split <;> rename_i h <;>
    simp only [Bool.or_eq_true, Bool.and_eq_true, beq_iff_eq, bne_iff_ne] at h
  · exact iff_of_true rfl (by tauto)
  · exact iff_of_false (by omega) (by tauto)

theorem from_ymd_jan1 (y : Int) (h1 : MIN_YEAR ≤ y) (h2 : y ≤ MAX_YEAR) :
    from_ymd_opt y 1 1 = some ⟨y, 1, 1⟩ := by
  unfold from_ymd_opt
  rw [if_pos]
  exact ⟨le_refl 1, by norm_num, le_refl 1, by norm_num [daysInMonth], h1, h2⟩

theorem and_hms_zero (d : Date) : and_hms_nano_opt d 0 0 0 0 = some ⟨d, 0⟩ := by
  unfold and_hms_nano_opt
  rw [if_pos (by norm_num)]

theorem add_months_small (y : Int) (nano n : Nat) (hn : n ≤ 10)
    (h1 : MIN_YEAR ≤ y) (h2 : y ≤ MAX_YEAR) :
    checked_add_months ⟨⟨y, 1, 1⟩, nano⟩ n = some ⟨⟨y, n + 1, 1⟩, nano⟩ := by
  unfold checked_add_months
  have hq : (((1 - 1 + n) / 12 : Nat) : Int) = 0 := by
    have : (1 - 1 + n) / 12 = 0 := by omega
    rw [this]; rfl
  have hr : (1 - 1 + n) % 12 + 1 = n + 1 := by omega
  simp only [hq, hr, add_zero]
  rw [if_pos ⟨by omega, by omega⟩]
  have hd : 1 ≤ daysInMonth y (n + 1) := by
    interval_cases n <;> simp [daysInMonth, leapN]
    all_goals omega
  simp [Nat.min_eq_left hd]

theorem add_months_twelve (y : Int) (nano : Nat)
    (h1 : MIN_YEAR ≤ y + 1) (h2 : y + 1 ≤ MAX_YEAR) :
    checked_add_months ⟨⟨y, 1, 1⟩, nano⟩ 12 = some ⟨⟨y + 1, 1, 1⟩, nano⟩ := by
  unfold checked_add_months
  norm_num [daysInMonth]
  exact fun hcon => absurd (hcon h1) (by omega)

theorem add_months_twelve_none (y : Int) (nano : Nat) (h2 : MAX_YEAR < y + 1) :
    checked_add_months ⟨⟨y, 1, 1⟩, nano⟩ 12 = none := by
  unfold checked_add_months
  norm_num [daysInMonth]
  exact fun _ hb => absurd hb (by omega)

theorem sub_one_day_first (y : Int) (m nano : Nat) (h2m : 2 ≤ m) :
    checked_sub_days ⟨⟨y, m, 1⟩, nano⟩ 1 = some ⟨⟨y, m - 1, daysInMonth y (m - 1)⟩, nano⟩ := by
  unfold checked_sub_days checked_sub_days predDate
  simp only [Option.some_bind]
  rw [if_neg (by norm_num), if_pos (by simpa using h2m)]
  rfl

theorem sub_one_day_jan1 (y : Int) (nano : Nat) (h : MIN_YEAR < y) :
    checked_sub_days ⟨⟨y, 1, 1⟩, nano⟩ 1 = some ⟨⟨y - 1, 12, 31⟩, nano⟩ := by
  unfold checked_sub_days checked_sub_days predDate
  simp only [Option.some_bind]
  rw [if_neg (by norm_num), if_neg (by norm_num), if_pos (by simpa using h)]
  rfl

theorem from_local_some (off : Int) (l : NaiveDT)
    (h1 : rankMin ≤ rankDT l - off * 1000000000)
    (h2 : rankDT l - off * 1000000000 ≤ rankMax) :
    from_local_datetime off l = some ⟨l, off⟩ := by
  unfold from_local_datetime
  rw [if_pos ⟨h1, h2⟩]

theorem from_local_none (off : Int) (l : NaiveDT)
    (h : rankDT l - off * 1000000000 < rankMin) :
    from_local_datetime off l = none := by
  unfold from_local_datetime
  rw [if_neg (by omega)]

theorem rankMin_val : rankMin = -8272497168000000000000 := by decide

theorem rankMax_val : rankMax = 8272434095999999999999 := by decide

theorem rank_bounds_first_of_month (y : Int) (m : Nat) (hm1 : 1 ≤ m) (hm2 : m ≤ 10)
    (off : Int) (h1 : MIN_YEAR ≤ y) (h2 : y ≤ MAX_YEAR)
    (ho1 : -86400 < off) (ho2 : off < 86400)
    (hmin : y = MIN_YEAR → m = 1 → off ≤ 0) :
    rankMin ≤ rankDT ⟨⟨y, m, 1⟩, 0⟩ - off * 1000000000 ∧
      rankDT ⟨⟨y, m, 1⟩, 0⟩ - off * 1000000000 ≤ rankMax := by
  have hl := leapN_le_one y
  have hls := (leapN_spec y).symm
  rw [rankMin_val, rankMax_val]
  unfold rankDT toDays ordinalOfDate nsPerDay at *
  unfold MIN_YEAR MAX_YEAR at *
  rcases Nat.lt_or_ge m 2 with hm' | hm'
  · have hm1' : m = 1 := by omega
    subst hm1'
    simp only [monthDaysBefore] at *
    rcases eq_or_lt_of_le h1 with hy | hy
    · have hoff : off ≤ 0 := hmin hy.symm (by trivial)
      omega
    · omega
  · interval_cases m <;> simp only [monthDaysBefore] at * <;> omega

theorem rank_bounds_end_of_quarter (y : Int) (m : Nat)
    (hm : m = 3 ∨ m = 6 ∨ m = 9 ∨ m = 12)
    (off : Int) (h1 : MIN_YEAR ≤ y) (h2 : y ≤ MAX_YEAR)
    (ho1 : -86400 < off) (ho2 : off < 86400) :
    rankMin ≤ rankDT ⟨⟨y, m, daysInMonth y m⟩, 0⟩ - off * 1000000000 ∧
      rankDT ⟨⟨y, m, daysInMonth y m⟩, 0⟩ - off * 1000000000 ≤ rankMax := by
  have hl := leapN_le_one y
  have hls := (leapN_spec y).symm
  rw [rankMin_val, rankMax_val]
  unfold rankDT toDays ordinalOfDate nsPerDay at *
  unfold MIN_YEAR MAX_YEAR at *
  rcases hm with hm | hm | hm | hm <;> subst hm <;>
    simp only [monthDaysBefore, daysInMonth] at * <;> omega

theorem generate_eq (ts : DateTimeFO) (hv : ValidTs ts)
    (h4 : ¬(quarterOf ts.ldt.date.month = 4 ∧ ts.ldt.date.year = MAX_YEAR))
    (h1m : ¬(quarterOf ts.ldt.date.month = 1 ∧ ts.ldt.date.year = MIN_YEAR ∧ 0 < ts.offset)) :
    generate_coordinates ts = some (coordsOf ts) := by
  obtain ⟨⟨⟨y, m, d⟩, nano⟩, off⟩ := ts
  obtain ⟨⟨hm1, hm2, hd1, hd2, hy1, hy2⟩, hnano, ho1, ho2, hr1, hr2⟩ := hv
  dsimp only at *
  have hqe : quarterOf m = 1 ∨ quarterOf m = 2 ∨ quarterOf m = 3 ∨ quarterOf m = 4 := by
    unfold quarterOf; omega
  rcases hqe with hq | hq | hq | hq
  · have hks := add_months_small y 0 0 (by omega) hy1 hy2
    have hke := add_months_small y 0 3 (by omega) hy1 hy2
    have hsb := sub_one_day_first y 4 0 (by omega)
    have hfs := rank_bounds_first_of_month y 1 (by omega) (by omega) off hy1 hy2 ho1 ho2
      (fun hyE _ => by by_contra hc; exact h1m ⟨hq, hyE, by omega⟩)
    have hfe := rank_bounds_end_of_quarter y 3 (Or.inl rfl) off hy1 hy2 ho1 ho2
    simp only [daysInMonth] at hsb hfe
    simp [generate_coordinates, coordsOf, startTsOf, endTsOf, startDateOf, endDateOf, hq,
      from_ymd_jan1 y hy1 hy2, and_hms_zero, hks, hke, hsb, daysInMonth,
      from_local_some _ _ hfs.1 hfs.2, from_local_some _ _ hfe.1 hfe.2]
  · have hks := add_months_small y 0 3 (by omega) hy1 hy2
    have hke := add_months_small y 0 6 (by omega) hy1 hy2
    have hsb := sub_one_day_first y 7 0 (by omega)
    have hfs := rank_bounds_first_of_month y 4 (by omega) (by omega) off hy1 hy2 ho1 ho2
      (fun _ hc => absurd hc (by omega))
    have hfe := rank_bounds_end_of_quarter y 6 (Or.inr (Or.inl rfl)) off hy1 hy2 ho1 ho2
    simp only [daysInMonth] at hsb hfe
    simp [generate_coordinates, coordsOf, startTsOf, endTsOf, startDateOf, endDateOf, hq,
      from_ymd_jan1 y hy1 hy2, and_hms_zero, hks, hke, hsb, daysInMonth,
      from_local_some _ _ hfs.1 hfs.2, from_local_some _ _ hfe.1 hfe.2]
  · have hks := add_months_small y 0 6 (by omega) hy1 hy2
    have hke := add_months_small y 0 9 (by omega) hy1 hy2
    have hsb := sub_one_day_first y 10 0 (by omega)
    have hfs := rank_bounds_first_of_month y 7 (by omega) (by omega) off hy1 hy2 ho1 ho2
      (fun _ hc => absurd hc (by omega))
    have hfe := rank_bounds_end_of_quarter y 9 (Or.inr (Or.inr (Or.inl rfl))) off hy1 hy2 ho1 ho2
    simp only [daysInMonth] at hsb hfe
    simp [generate_coordinates, coordsOf, startTsOf, endTsOf, startDateOf, endDateOf, hq,
      from_ymd_jan1 y hy1 hy2, and_hms_zero, hks, hke, hsb, daysInMonth,
      from_local_some _ _ hfs.1 hfs.2, from_local_some _ _ hfe.1 hfe.2]
  · have hyM : y ≠ MAX_YEAR := fun hyy => h4 ⟨hq, hyy⟩
    have hks := add_months_small y 0 9 (by omega) hy1 hy2
    have hke := add_months_twelve y 0 (by omega) (by omega)
    have hsb := sub_one_day_jan1 (y + 1) 0 (by omega)
    have hy' : y + 1 - 1 = y := by ring
    rw [hy'] at hsb
    have hfs := rank_bounds_first_of_month y 10 (by omega) (by omega) off hy1 hy2 ho1 ho2
      (fun _ hc => absurd hc (by omega))
    have hfe := rank_bounds_end_of_quarter y 12 (Or.inr (Or.inr (Or.inr rfl))) off hy1 hy2 ho1 ho2
    simp only [daysInMonth] at hfe
    simp [generate_coordinates, coordsOf, startTsOf, endTsOf, startDateOf, endDateOf, hq,
      from_ymd_jan1 y hy1 hy2, and_hms_zero, hks, hke, hsb, daysInMonth,
      from_local_some _ _ hfs.1 hfs.2, from_local_some _ _ hfe.1 hfe.2]

theorem generate_none_q4_max (ts : DateTimeFO) (hv : ValidTs ts)
    (hq : quarterOf ts.ldt.date.month = 4) (hy : ts.ldt.date.year = MAX_YEAR) :
    generate_coordinates ts = none := by
  obtain ⟨⟨⟨y, m, d⟩, nano⟩, off⟩ := ts
  obtain ⟨⟨hm1, hm2, hd1, hd2, hy1, hy2⟩, hnano, ho1, ho2, hr1, hr2⟩ := hv
  dsimp only at *
  have hks := add_months_small y 0 9 (by omega) hy1 hy2
  have hke := add_months_twelve_none y 0 (by omega)
  have hfs := rank_bounds_first_of_month y 10 (by omega) (by omega) off hy1 hy2 ho1 ho2
    (fun _ hc => absurd hc (by omega))
  simp [generate_coordinates, hq, from_ymd_jan1 y hy1 hy2, and_hms_zero, hks, hke,
    from_local_some _ _ hfs.1 hfs.2]

theorem generate_none_q1_min (ts : DateTimeFO) (hv : ValidTs ts)
    (hq : quarterOf ts.ldt.date.month = 1) (hy : ts.ldt.date.year = MIN_YEAR)
    (hoff : 0 < ts.offset) :
    generate_coordinates ts = none := by
  obtain ⟨⟨⟨y, m, d⟩, nano⟩, off⟩ := ts
  obtain ⟨⟨hm1, hm2, hd1, hd2, hy1, hy2⟩, hnano, ho1, ho2, hr1, hr2⟩ := hv
  dsimp only at *
  subst hy
  have hks := add_months_small MIN_YEAR 0 0 (by omega) hy1 hy2
  have hfl : from_local_datetime off ⟨⟨MIN_YEAR, 1, 1⟩, 0⟩ = none := by
    apply from_local_none
    rw [rankMin_val]
    unfold rankDT toDays ordinalOfDate nsPerDay MIN_YEAR
    simp only [monthDaysBefore]
    omega
  simp [generate_coordinates, hq, from_ymd_jan1 MIN_YEAR hy1 hy2, and_hms_zero, hks, hfl]

theorem generate_some_inv (ts : DateTimeFO) (c : CorporateCoordinates) (hv : ValidTs ts)
    (h : generate_coordinates ts = some c) : c = coordsOf ts := by
  by_cases h4 : quarterOf ts.ldt.date.month = 4 ∧ ts.ldt.date.year = MAX_YEAR
  · rw [generate_none_q4_max ts hv h4.1 h4.2] at h
    cases h
  · by_cases h1m : quarterOf ts.ldt.date.month = 1 ∧ ts.ldt.date.year = MIN_YEAR ∧ 0 < ts.offset
    · rw [generate_none_q1_min ts hv h1m.1 h1m.2.1 h1m.2.2] at h
      cases h
    · rw [generate_eq ts hv h4 h1m] at h
      exact (Option.some.inj h).symm

theorem daysInMonth_pos (y : Int) (m : Nat) (hm1 : 1 ≤ m) (hm2 : m ≤ 12) :
    1 ≤ daysInMonth y m := by
  interval_cases m <;> simp [daysInMonth, leapN]
  all_goals omega

theorem ord_bounds (y : Int) (m d : Nat) (hm1 : 1 ≤ m) (hm2 : m ≤ 12) (hd1 : 1 ≤ d)
    (hd2 : d ≤ daysInMonth y m) :
    1 ≤ ordinalOfDate ⟨y, m, d⟩ ∧ ordinalOfDate ⟨y, m, d⟩ ≤ 365 + leapN y := by
  have hl := leapN_le_one y
  unfold ordinalOfDate
  dsimp only
  interval_cases m <;> simp [monthDaysBefore, daysInMonth] at * <;> omega

theorem ord_start_le (y : Int) (m d : Nat) (hm1 : 1 ≤ m) (hm2 : m ≤ 12) (hd1 : 1 ≤ d) :
    ordinalOfDate ⟨y, 3 * quarterOf m - 2, 1⟩ ≤ ordinalOfDate ⟨y, m, d⟩ := by
  unfold ordinalOfDate quarterOf
  dsimp only
  interval_cases m <;> simp [monthDaysBefore] <;> omega

theorem ord_le_end (y : Int) (m d : Nat) (hm1 : 1 ≤ m) (hm2 : m ≤ 12)
    (hd2 : d ≤ daysInMonth y m) :
    ordinalOfDate ⟨y, m, d⟩ ≤
      ordinalOfDate ⟨y, 3 * quarterOf m, daysInMonth y (3 * quarterOf m)⟩ := by
  unfold ordinalOfDate quarterOf
  dsimp only
  interval_cases m <;> simp [monthDaysBefore, daysInMonth] at * <;> omega

theorem quarterDays_eq (y : Int) (m d nano : Nat) (off : Int)
    (hm1 : 1 ≤ m) (hm2 : m ≤ 12) :
    quarterDays ⟨⟨⟨y, m, d⟩, nano⟩, off⟩ =
      if quarterOf m = 1 then 89 + leapN y else if quarterOf m = 2 then 90 else 91 := by
  unfold quarterDays endDateOf startDateOf ordinalOfDate quarterOf
  dsimp only
  interval_cases m <;> simp [monthDaysBefore, daysInMonth] <;> omega

theorem num_days_of_day_nano (D : Int) (nano : Nat) (hD : 0 ≤ D)
    (hn : (nano : Int) < nsPerDay) :
    num_days (D * nsPerDay + (nano : Int)) = D := by
  unfold num_days nsPerDay at *
  rw [if_pos (by omega)]
  omega

theorem num_days_of_day (D : Int) (hD : 0 ≤ D) : num_days (D * nsPerDay) = D := by
  unfold num_days nsPerDay
  rw [if_pos (by omega)]
  omega

theorem num_days_day_sub_nano (D : Int) (nano : Nat) (hD : 0 ≤ D)
    (hn : (nano : Int) < nsPerDay) :
    num_days (D * nsPerDay - (nano : Int)) = if nano = 0 then D else max (D - 1) 0 := by
  unfold num_days nsPerDay at *
  split_ifs <;> omega

theorem duration_ldt (a b : NaiveDT) (off : Int) :
    duration_nanos ⟨a, off⟩ ⟨b, off⟩ = rankDT a - rankDT b := by
  unfold duration_nanos utcRank
  dsimp only
  ring

theorem rankDT_sub_same_year (y : Int) (m1 d1 n1 m2 d2 n2 : Nat) :
    rankDT ⟨⟨y, m2, d2⟩, n2⟩ - rankDT ⟨⟨y, m1, d1⟩, n1⟩ =
      ((ordinalOfDate ⟨y, m2, d2⟩ : Int) - ordinalOfDate ⟨y, m1, d1⟩) * nsPerDay +
        n2 - n1 := by
  unfold rankDT toDays
  dsimp only
  ring

theorem coords_fw (y : Int) (m d nano : Nat) (off : Int)
    (hv : ValidTs ⟨⟨⟨y, m, d⟩, nano⟩, off⟩) :
    (coordsOf ⟨⟨⟨y, m, d⟩, nano⟩, off⟩).full_week_of_quarter_done =
      elapsedDays ⟨⟨⟨y, m, d⟩, nano⟩, off⟩ / 7 := by
  obtain ⟨⟨hm1, hm2, hd1, hd2, hy1, hy2⟩, hnano, ho1, ho2, hr1, hr2⟩ := hv
  dsimp only at *
  have hle := ord_start_le y m d hm1 hm2 hd1
  have hb := ord_bounds y m d hm1 hm2 hd1 hd2
  have hl := leapN_le_one y
  simp only [coordsOf, startTsOf, startDateOf, elapsedDays]
  rw [duration_ldt, rankDT_sub_same_year]
  rw [show ((ordinalOfDate ⟨y, m, d⟩ : Int) - ordinalOfDate ⟨y, 3 * quarterOf m - 2, 1⟩) =
      ((ordinalOfDate ⟨y, m, d⟩ - ordinalOfDate ⟨y, 3 * quarterOf m - 2, 1⟩ : Nat) : Int)
    from by omega]
  rw [show ((ordinalOfDate ⟨y, m, d⟩ - ordinalOfDate ⟨y, 3 * quarterOf m - 2, 1⟩ : Nat) : Int) *
        nsPerDay + (nano : Int) - ((0 : Nat) : Int) =
      ((ordinalOfDate ⟨y, m, d⟩ - ordinalOfDate ⟨y, 3 * quarterOf m - 2, 1⟩ : Nat) : Int) *
        nsPerDay + (nano : Int) from by push_cast; ring]
  rw [num_days_of_day_nano _ nano (by omega) (by unfold nsPerDay; omega)]
  unfold u32_of_float
  split_ifs <;> omega

theorem coords_dq (y : Int) (m d nano : Nat) (off : Int)
    (hv : ValidTs ⟨⟨⟨y, m, d⟩, nano⟩, off⟩) :
    (coordsOf ⟨⟨⟨y, m, d⟩, nano⟩, off⟩).days_in_quarter =
      quarterDays ⟨⟨⟨y, m, d⟩, nano⟩, off⟩ := by
  obtain ⟨⟨hm1, hm2, hd1, hd2, hy1, hy2⟩, hnano, ho1, ho2, hr1, hr2⟩ := hv
  dsimp only at *
  have hle := ord_start_le y m d hm1 hm2 hd1
  have hle2 := ord_le_end y m d hm1 hm2 hd2
  have hb := ord_bounds y m d hm1 hm2 hd1 hd2
  have h3q : 1 ≤ 3 * quarterOf m ∧ 3 * quarterOf m ≤ 12 := by unfold quarterOf; omega
  have hbe := ord_bounds y (3 * quarterOf m) (daysInMonth y (3 * quarterOf m)) h3q.1 h3q.2
    (daysInMonth_pos y (3 * quarterOf m) h3q.1 h3q.2) (le_refl _)
  have hl := leapN_le_one y
  simp only [coordsOf, startTsOf, endTsOf, startDateOf, endDateOf, quarterDays]
  rw [duration_ldt, rankDT_sub_same_year]
  rw [show ((ordinalOfDate ⟨y, 3 * quarterOf m, daysInMonth y (3 * quarterOf m)⟩ : Int) -
        ordinalOfDate ⟨y, 3 * quarterOf m - 2, 1⟩) * nsPerDay + ((0 : Nat) : Int) -
        ((0 : Nat) : Int) =
      ((ordinalOfDate ⟨y, 3 * quarterOf m, daysInMonth y (3 * quarterOf m)⟩ -
        ordinalOfDate ⟨y, 3 * quarterOf m - 2, 1⟩ : Nat) : Int) * nsPerDay
    from by push_cast [Nat.cast_sub (le_trans hle hle2)]; ring]
  rw [num_days_of_day _ (by omega)]
  unfold u32_of_int
  omega

theorem coords_dl (y : Int) (m d nano : Nat) (off : Int)
    (hv : ValidTs ⟨⟨⟨y, m, d⟩, nano⟩, off⟩) :
    (coordsOf ⟨⟨⟨y, m, d⟩, nano⟩, off⟩).days_left_in_quarter =
      if nano = 0 then remainingDays ⟨⟨⟨y, m, d⟩, nano⟩, off⟩ + 1
      else max (remainingDays ⟨⟨⟨y, m, d⟩, nano⟩, off⟩) 1 := by
  obtain ⟨⟨hm1, hm2, hd1, hd2, hy1, hy2⟩, hnano, ho1, ho2, hr1, hr2⟩ := hv
  dsimp only at *
  have hle2 := ord_le_end y m d hm1 hm2 hd2
  have hb := ord_bounds y m d hm1 hm2 hd1 hd2
  have h3q : 1 ≤ 3 * quarterOf m ∧ 3 * quarterOf m ≤ 12 := by unfold quarterOf; omega
  have hbe := ord_bounds y (3 * quarterOf m) (daysInMonth y (3 * quarterOf m)) h3q.1 h3q.2
    (daysInMonth_pos y (3 * quarterOf m) h3q.1 h3q.2) (le_refl _)
  have hl := leapN_le_one y
  simp only [coordsOf, endTsOf, endDateOf, remainingDays]
  rw [duration_ldt, rankDT_sub_same_year]
  rw [show ((ordinalOfDate ⟨y, 3 * quarterOf m, daysInMonth y (3 * quarterOf m)⟩ : Int) -
        ordinalOfDate ⟨y, m, d⟩) * nsPerDay + ((0 : Nat) : Int) - (nano : Int) =
      ((ordinalOfDate ⟨y, 3 * quarterOf m, daysInMonth y (3 * quarterOf m)⟩ -
        ordinalOfDate ⟨y, m, d⟩ : Nat) : Int) * nsPerDay - (nano : Int)
    from by push_cast [Nat.cast_sub hle2]; ring]
  rw [num_days_day_sub_nano _ nano (by omega) (by unfold nsPerDay; omega)]
  unfold u32_of_int
  split_ifs <;> omega

theorem toDays_sub_same_year (y : Int) (m1 d1 m2 d2 : Nat) :
    toDays ⟨y, m2, d2⟩ - toDays ⟨y, m1, d1⟩ =
      (ordinalOfDate ⟨y, m2, d2⟩ : Int) - ordinalOfDate ⟨y, m1, d1⟩ := by
  unfold toDays
  dsimp only
  ring

/-- C1 counterexample: at the valid input 1999-06-30T16:39:57+00:00 the record's
end_of_quarter is 1999-06-30T00:00:00+00:00, an instant strictly earlier than the
input, so the claimed invariant start_of_quarter ≤ t ≤ end_of_quarter fails. -/
theorem C1_counterexample :
    ValidTs ts1999Jun30 ∧
      Option.map CorporateCoordinates.end_of_quarter (generate_coordinates ts1999Jun30) =
        some ⟨⟨⟨1999, 6, 30⟩, 0⟩, 0⟩ ∧
      utcRank ⟨⟨⟨1999, 6, 30⟩, 0⟩, 0⟩ < utcRank ts1999Jun30 :=
  ⟨by decide, by decide, by decide⟩

/-- C1 amended: for every valid input on which generate_coordinates succeeds,
start_of_quarter ≤ t holds, and instead of t ≤ end_of_quarter (which fails
whenever t is past midnight on the quarter's last day, since end_of_quarter is
midnight on that day) what holds is t < end_of_quarter + one day, i.e. t's
instant lies before the end of the end_of_quarter calendar day. -/
theorem C1_amended_start_le_t_lt_end_plus_day (ts : DateTimeFO) (c : CorporateCoordinates)
    (hv : ValidTs ts) (h : generate_coordinates ts = some c) :
    utcRank c.start_of_quarter ≤ utcRank ts ∧
      utcRank ts < utcRank c.end_of_quarter + nsPerDay := by
  have hc := generate_some_inv ts c hv h
  subst hc
  obtain ⟨⟨⟨y, m, d⟩, nano⟩, off⟩ := ts
  obtain ⟨⟨hm1, hm2, hd1, hd2, hy1, hy2⟩, hnano, ho1, ho2, hr1, hr2⟩ := hv
  dsimp only at *
  have hle := ord_start_le y m d hm1 hm2 hd1
  have hle2 := ord_le_end y m d hm1 hm2 hd2
  simp only [coordsOf, startTsOf, endTsOf, startDateOf, endDateOf, utcRank, rankDT, toDays,
    nsPerDay]
  constructor <;> omega

theorem C1_witness :
    ValidTs ts1999Aug1 ∧ generate_coordinates ts1999Aug1 = some (coordsOf ts1999Aug1) ∧
      (utcRank (coordsOf ts1999Aug1).start_of_quarter ≤ utcRank ts1999Aug1 ∧
        utcRank ts1999Aug1 < utcRank (coordsOf ts1999Aug1).end_of_quarter + nsPerDay) :=
  ⟨by decide, by decide,
    C1_amended_start_le_t_lt_end_plus_day ts1999Aug1 (coordsOf ts1999Aug1)
      (by decide) (by decide)⟩

/-- C2 counterexample: at the valid input 1999-04-01T16:39:57+00:00 the record's
days_left_in_quarter is 90, but the inclusive calendar-day count from the input's
date (1999-04-01) to end_of_quarter's date (1999-06-30) is 91: the program's
truncating day difference drops the input's own partial day, so the field is not
the inclusive count the claim states (the repository's own test asserts 90). -/
theorem C2_counterexample :
    ValidTs ts1999Apr1 ∧
      Option.map CorporateCoordinates.end_of_quarter (generate_coordinates ts1999Apr1) =
        some ⟨⟨⟨1999, 6, 30⟩, 0⟩, 0⟩ ∧
      Option.map CorporateCoordinates.days_left_in_quarter (generate_coordinates ts1999Apr1) =
        some 90 ∧
      toDays ⟨1999, 6, 30⟩ - toDays ⟨1999, 4, 1⟩ + 1 = 91 :=
  ⟨by decide, by decide, by decide, by decide⟩

/-- C2 amended: days_left_in_quarter is always ≥ 1; it equals the whole-day
difference from t to end_of_quarter (truncated toward zero) plus one, which in
calendar terms is: the inclusive day count from t's date to end_of_quarter's
date when t is at local midnight, and otherwise that count minus one (t's own
partial day no longer counts), clamped below at 1; in particular it is 1 for
t = 1999-06-30T16:39:57+00:00. -/
theorem C2_amended_days_left :
    (∀ ts c, ValidTs ts → generate_coordinates ts = some c →
      1 ≤ c.days_left_in_quarter ∧
        c.days_left_in_quarter =
          if ts.ldt.nano = 0 then remainingDays ts + 1 else max (remainingDays ts) 1) ∧
      Option.map CorporateCoordinates.days_left_in_quarter (generate_coordinates ts1999Jun30) =
        some 1 := by
  constructor
  · intro ts c hv h
    have hc := generate_some_inv ts c hv h
    subst hc
    obtain ⟨⟨⟨y, m, d⟩, nano⟩, off⟩ := ts
    rw [coords_dl y m d nano off hv]
    constructor
    · split <;> omega
    · dsimp only
  · decide

theorem C2_witness :
    ValidTs ts1999Feb1 ∧ generate_coordinates ts1999Feb1 = some (coordsOf ts1999Feb1) ∧
      (1 ≤ (coordsOf ts1999Feb1).days_left_in_quarter ∧
        (coordsOf ts1999Feb1).days_left_in_quarter =
          if ts1999Feb1.ldt.nano = 0 then remainingDays ts1999Feb1 + 1
          else max (remainingDays ts1999Feb1) 1) :=
  ⟨by decide, by decide,
    C2_amended_days_left.1 ts1999Feb1 (coordsOf ts1999Feb1) (by decide) (by decide)⟩

/-- C3 counterexample: at the valid input 1999-01-01T16:39:57+00:00 (quarter 1 of
a non-leap year) days_in_quarter is 89, which is none of the claimed nominal
values 90, 91, 92. -/
theorem C3_counterexample :
    ValidTs ts1999Jan1 ∧
      Option.map CorporateCoordinates.days_in_quarter (generate_coordinates ts1999Jan1) =
        some 89 ∧
      ¬((89 : Nat) = 90 ∨ (89 : Nat) = 91 ∨ (89 : Nat) = 92) :=
  ⟨by decide, by decide, by decide⟩

/-- C3 amended: days_in_quarter equals the whole-day difference between
end_of_quarter and start_of_quarter (exclusive of one endpoint) and is 89, 90,
or 91 (not 90/91/92) depending on the calendar quarter and leap year; in
particular it is 90 for t = 1999-04-01T16:39:57+00:00. -/
theorem C3_amended_days_in :
    (∀ ts c, ValidTs ts → generate_coordinates ts = some c →
      (c.days_in_quarter : Int) =
          toDays c.end_of_quarter.ldt.date - toDays c.start_of_quarter.ldt.date ∧
        (c.days_in_quarter = 89 ∨ c.days_in_quarter = 90 ∨ c.days_in_quarter = 91)) ∧
      Option.map CorporateCoordinates.days_in_quarter (generate_coordinates ts1999Apr1) =
        some 90 := by
  constructor
  · intro ts c hv h
    have hc := generate_some_inv ts c hv h
    subst hc
    obtain ⟨⟨⟨y, m, d⟩, nano⟩, off⟩ := ts
    obtain ⟨⟨hm1, hm2, hd1, hd2, hy1, hy2⟩, hnano, ho1, ho2, hr1, hr2⟩ := hv
    have hv' : ValidTs ⟨⟨⟨y, m, d⟩, nano⟩, off⟩ :=
      ⟨⟨hm1, hm2, hd1, hd2, hy1, hy2⟩, hnano, ho1, ho2, hr1, hr2⟩
    have hl := leapN_le_one y
    have hle := ord_start_le y m d hm1 hm2 hd1
    have hle2 := ord_le_end y m d hm1 hm2 hd2
    constructor
    · rw [coords_dq y m d nano off hv']
      simp only [coordsOf, startTsOf, endTsOf, startDateOf, endDateOf, quarterDays]
      rw [toDays_sub_same_year]
      omega
    · rw [coords_dq y m d nano off hv', quarterDays_eq y m d nano off hm1 hm2]
      split_ifs <;> omega
  · decide

theorem C3_witness :
    ValidTs ts1999Nov1 ∧ generate_coordinates ts1999Nov1 = some (coordsOf ts1999Nov1) ∧
      (((coordsOf ts1999Nov1).days_in_quarter : Int) =
          toDays (coordsOf ts1999Nov1).end_of_quarter.ldt.date -
            toDays (coordsOf ts1999Nov1).start_of_quarter.ldt.date ∧
        ((coordsOf ts1999Nov1).days_in_quarter = 89 ∨
          (coordsOf ts1999Nov1).days_in_quarter = 90 ∨
          (coordsOf ts1999Nov1).days_in_quarter = 91)) :=
  ⟨by decide, by decide,
    C3_amended_days_in.1 ts1999Nov1 (coordsOf ts1999Nov1) (by decide) (by decide)⟩

/-- C4 counterexample: 262143-10-01T00:00:00+00:00 is a valid
proleptic-Gregorian timestamp with a valid (chrono-representable) year, yet
generate_coordinates panics on it: computing end_of_quarter adds 12 months to
262143-01-01, which leaves chrono's representable year range, so the
checked_add_months(..).unwrap() fails. -/
theorem C4_counterexample :
    ValidTs tsMaxQ4 ∧ generate_coordinates tsMaxQ4 = none :=
  ⟨by decide, by decide⟩

/-- C4 amended: generate_coordinates is total except at chrono's extreme year
boundaries: it succeeds (never panics) for every valid timestamp except those in
quarter 4 of the maximal year 262143 (month arithmetic overflows) and those in
quarter 1 of the minimal year -262144 with a strictly positive UTC offset
(converting the quarter-start local midnight to a UTC instant underflows). -/
theorem C4_amended_total (ts : DateTimeFO) (hv : ValidTs ts)
    (h4 : ¬(quarterOf ts.ldt.date.month = 4 ∧ ts.ldt.date.year = MAX_YEAR))
    (h1m : ¬(quarterOf ts.ldt.date.month = 1 ∧ ts.ldt.date.year = MIN_YEAR ∧ 0 < ts.offset)) :
    (generate_coordinates ts).isSome = true := by
  rw [generate_eq ts hv h4 h1m]
  rfl

theorem C4_witness :
    ValidTs ts1999May1 ∧
      ¬(quarterOf ts1999May1.ldt.date.month = 4 ∧ ts1999May1.ldt.date.year = MAX_YEAR) ∧
      ¬(quarterOf ts1999May1.ldt.date.month = 1 ∧ ts1999May1.ldt.date.year = MIN_YEAR ∧
        0 < ts1999May1.offset) ∧
      (generate_coordinates ts1999May1).isSome = true :=
  ⟨by decide, by decide, by decide, C4_amended_total ts1999May1 (by decide) (by decide) (by decide)⟩

/-- C5 (confirmed): full_week_of_quarter_done is never negative (it is a
natural number, and the saturating float-to-u32 cast maps any negative value
to 0) and is bounded by floor(days_in_quarter / 7), the two fields being taken
from the same output record. -/
theorem C5_full_weeks_bounded (ts : DateTimeFO) (c : CorporateCoordinates)
    (hv : ValidTs ts) (h : generate_coordinates ts = some c) :
    0 ≤ c.full_week_of_quarter_done ∧
      c.full_week_of_quarter_done ≤ c.days_in_quarter / 7 := by
  have hc := generate_some_inv ts c hv h
  subst hc
  obtain ⟨⟨⟨y, m, d⟩, nano⟩, off⟩ := ts
  obtain ⟨⟨hm1, hm2, hd1, hd2, hy1, hy2⟩, hnano, ho1, ho2, hr1, hr2⟩ := hv
  have hv' : ValidTs ⟨⟨⟨y, m, d⟩, nano⟩, off⟩ :=
    ⟨⟨hm1, hm2, hd1, hd2, hy1, hy2⟩, hnano, ho1, ho2, hr1, hr2⟩
  refine ⟨Nat.zero_le _, ?_⟩
  rw [coords_fw y m d nano off hv', coords_dq y m d nano off hv']
  apply Nat.div_le_div_right
  have hle := ord_start_le y m d hm1 hm2 hd1
  have hle2 := ord_le_end y m d hm1 hm2 hd2
  simp only [elapsedDays, quarterDays, startDateOf, endDateOf]
  omega

theorem C5_witness :
    ValidTs ts1999Jun30 ∧ generate_coordinates ts1999Jun30 = some (coordsOf ts1999Jun30) ∧
      (0 ≤ (coordsOf ts1999Jun30).full_week_of_quarter_done ∧
        (coordsOf ts1999Jun30).full_week_of_quarter_done ≤
          (coordsOf ts1999Jun30).days_in_quarter / 7) :=
  ⟨by decide, by decide,
    C5_full_weeks_bounded ts1999Jun30 (coordsOf ts1999Jun30) (by decide) (by decide)⟩

/-- C6 (confirmed): the quarter field is between 1 and 4 and equals
ceil(month/3) for the 1-based calendar month; the ceiling is expressed both as
the integer formula (month + 2) / 3 (exactly the source's float ceiling for
months 1-12) and by its characteristic property month ≤ 3*quarter < month + 3. -/
theorem C6_quarter_correct (ts : DateTimeFO) (c : CorporateCoordinates)
    (hv : ValidTs ts) (h : generate_coordinates ts = some c) :
    1 ≤ c.quarter ∧ c.quarter ≤ 4 ∧ c.quarter = (ts.ldt.date.month + 2) / 3 ∧
      ts.ldt.date.month ≤ 3 * c.quarter ∧ 3 * c.quarter < ts.ldt.date.month + 3 := by
  have hc := generate_some_inv ts c hv h
  subst hc
  obtain ⟨⟨⟨y, m, d⟩, nano⟩, off⟩ := ts
  obtain ⟨⟨hm1, hm2, hd1, hd2, hy1, hy2⟩, hnano, ho1, ho2, hr1, hr2⟩ := hv
  dsimp only at *
  simp only [coordsOf]
  unfold quarterOf
  omega

theorem C6_witness :
    ValidTs ts1999Apr1 ∧ generate_coordinates ts1999Apr1 = some (coordsOf ts1999Apr1) ∧
      (1 ≤ (coordsOf ts1999Apr1).quarter ∧ (coordsOf ts1999Apr1).quarter ≤ 4 ∧
        (coordsOf ts1999Apr1).quarter = (ts1999Apr1.ldt.date.month + 2) / 3 ∧
        ts1999Apr1.ldt.date.month ≤ 3 * (coordsOf ts1999Apr1).quarter ∧
        3 * (coordsOf ts1999Apr1).quarter < ts1999Apr1.ldt.date.month + 3) :=
  ⟨by decide, by decide,
    C6_quarter_correct ts1999Apr1 (coordsOf ts1999Apr1) (by decide) (by decide)⟩

/-- C7 (confirmed): start_of_quarter is local midnight on day 1 of the
quarter's first month and end_of_quarter is local midnight on the last day of
the quarter's third month, both carrying the input's offset; and the 1999
offset +00:00 quarter table holds: starts Jan 1 / Apr 1 / Jul 1 / Oct 1, ends
Mar 31 / Jun 30 / Sep 30 / Dec 31, each at T00:00:00. -/
theorem C7_quarter_boundaries :
    (∀ ts c, ValidTs ts → generate_coordinates ts = some c →
      c.start_of_quarter = ⟨⟨⟨ts.ldt.date.year, 3 * c.quarter - 2, 1⟩, 0⟩, ts.offset⟩ ∧
        c.end_of_quarter =
          ⟨⟨⟨ts.ldt.date.year, 3 * c.quarter,
            daysInMonth ts.ldt.date.year (3 * c.quarter)⟩, 0⟩, ts.offset⟩) ∧
      Option.map CorporateCoordinates.start_of_quarter (generate_coordinates ts1999Feb1) =
        some ⟨⟨⟨1999, 1, 1⟩, 0⟩, 0⟩ ∧
      Option.map CorporateCoordinates.end_of_quarter (generate_coordinates ts1999Feb1) =
        some ⟨⟨⟨1999, 3, 31⟩, 0⟩, 0⟩ ∧
      Option.map CorporateCoordinates.start_of_quarter (generate_coordinates ts1999May1) =
        some ⟨⟨⟨1999, 4, 1⟩, 0⟩, 0⟩ ∧
      Option.map CorporateCoordinates.end_of_quarter (generate_coordinates ts1999May1) =
        some ⟨⟨⟨1999, 6, 30⟩, 0⟩, 0⟩ ∧
      Option.map CorporateCoordinates.start_of_quarter (generate_coordinates ts1999Aug1) =
        some ⟨⟨⟨1999, 7, 1⟩, 0⟩, 0⟩ ∧
      Option.map CorporateCoordinates.end_of_quarter (generate_coordinates ts1999Aug1) =
        some ⟨⟨⟨1999, 9, 30⟩, 0⟩, 0⟩ ∧
      Option.map CorporateCoordinates.start_of_quarter (generate_coordinates ts1999Nov1) =
        some ⟨⟨⟨1999, 10, 1⟩, 0⟩, 0⟩ ∧
      Option.map CorporateCoordinates.end_of_quarter (generate_coordinates ts1999Nov1) =
        some ⟨⟨⟨1999, 12, 31⟩, 0⟩, 0⟩ := by
  refine ⟨?_, by decide, by decide, by decide, by decide, by decide, by decide, by decide,
    by decide⟩
  intro ts c hv h
  have hc := generate_some_inv ts c hv h
  subst hc
  exact ⟨rfl, rfl⟩

theorem C7_witness :
    ValidTs ts1999Jan1 ∧ generate_coordinates ts1999Jan1 = some (coordsOf ts1999Jan1) ∧
      ((coordsOf ts1999Jan1).start_of_quarter =
          ⟨⟨⟨ts1999Jan1.ldt.date.year, 3 * (coordsOf ts1999Jan1).quarter - 2, 1⟩, 0⟩,
            ts1999Jan1.offset⟩ ∧
        (coordsOf ts1999Jan1).end_of_quarter =
          ⟨⟨⟨ts1999Jan1.ldt.date.year, 3 * (coordsOf ts1999Jan1).quarter,
            daysInMonth ts1999Jan1.ldt.date.year (3 * (coordsOf ts1999Jan1).quarter)⟩, 0⟩,
            ts1999Jan1.offset⟩) :=
  ⟨by decide, by decide,
    C7_quarter_boundaries.1 ts1999Jan1 (coordsOf ts1999Jan1) (by decide) (by decide)⟩

/-- C8 (confirmed): full_week_of_quarter_done equals the floor of (the
truncating whole-day difference between t and start_of_quarter) divided by 7,
and the four 1999 spot checks hold (0, 4, 0 and 12 full weeks). -/
theorem C8_full_weeks_formula :
    (∀ ts c, ValidTs ts → generate_coordinates ts = some c →
      (c.full_week_of_quarter_done : Int) =
        num_days (duration_nanos ts c.start_of_quarter) / 7) ∧
      Option.map CorporateCoordinates.full_week_of_quarter_done
        (generate_coordinates ts1999Jan1) = some 0 ∧
      Option.map CorporateCoordinates.full_week_of_quarter_done
        (generate_coordinates ts1999Feb1) = some 4 ∧
      Option.map CorporateCoordinates.full_week_of_quarter_done
        (generate_coordinates ts1999Apr1) = some 0 ∧
      Option.map CorporateCoordinates.full_week_of_quarter_done
        (generate_coordinates ts1999Jun30) = some 12 := by
  refine ⟨?_, by decide, by decide, by decide, by decide⟩
  intro ts c hv h
  have hc := generate_some_inv ts c hv h
  subst hc
  obtain ⟨⟨⟨y, m, d⟩, nano⟩, off⟩ := ts
  obtain ⟨⟨hm1, hm2, hd1, hd2, hy1, hy2⟩, hnano, ho1, ho2, hr1, hr2⟩ := hv
  have hv' : ValidTs ⟨⟨⟨y, m, d⟩, nano⟩, off⟩ :=
    ⟨⟨hm1, hm2, hd1, hd2, hy1, hy2⟩, hnano, ho1, ho2, hr1, hr2⟩
  dsimp only at hm1 hm2 hd1 hd2 hy1 hy2 hnano ho1 ho2
  have hle := ord_start_le y m d hm1 hm2 hd1
  rw [coords_fw y m d nano off hv']
  simp only [coordsOf, startTsOf, startDateOf, elapsedDays]
  rw [duration_ldt, rankDT_sub_same_year]
  rw [show ((ordinalOfDate ⟨y, m, d⟩ : Int) - ordinalOfDate ⟨y, 3 * quarterOf m - 2, 1⟩) =
      ((ordinalOfDate ⟨y, m, d⟩ - ordinalOfDate ⟨y, 3 * quarterOf m - 2, 1⟩ : Nat) : Int)
    from by omega]
  rw [show ((ordinalOfDate ⟨y, m, d⟩ - ordinalOfDate ⟨y, 3 * quarterOf m - 2, 1⟩ : Nat) : Int) *
        nsPerDay + (nano : Int) - ((0 : Nat) : Int) =
      ((ordinalOfDate ⟨y, m, d⟩ - ordinalOfDate ⟨y, 3 * quarterOf m - 2, 1⟩ : Nat) : Int) *
        nsPerDay + (nano : Int) from by push_cast; ring]
  rw [num_days_of_day_nano _ nano (by omega) (by unfold nsPerDay; omega)]
  omega

theorem C8_witness :
    ValidTs ts1999May1 ∧ generate_coordinates ts1999May1 = some (coordsOf ts1999May1) ∧
      ((coordsOf ts1999May1).full_week_of_quarter_done : Int) =
        num_days (duration_nanos ts1999May1 (coordsOf ts1999May1).start_of_quarter) / 7 :=
  ⟨by decide, by decide,
    C8_full_weeks_formula.1 ts1999May1 (coordsOf ts1999May1) (by decide) (by decide)⟩

/-- C9 (confirmed): when the input is exactly the first instant of a quarter
(equal to the record's own start_of_quarter, local midnight on the quarter's
first day), days_left_in_quarter = days_in_quarter + 1: the remaining-day count
is inclusive (+1) while the quarter-length count is exclusive. -/
theorem C9_first_instant_off_by_one (ts : DateTimeFO) (c : CorporateCoordinates)
    (hv : ValidTs ts) (h : generate_coordinates ts = some c)
    (hstart : ts = c.start_of_quarter) :
    c.days_left_in_quarter = c.days_in_quarter + 1 := by
  have hc := generate_some_inv ts c hv h
  subst hc
  obtain ⟨⟨⟨y, m, d⟩, nano⟩, off⟩ := ts
  obtain ⟨⟨hm1, hm2, hd1, hd2, hy1, hy2⟩, hnano, ho1, ho2, hr1, hr2⟩ := hv
  have hv' : ValidTs ⟨⟨⟨y, m, d⟩, nano⟩, off⟩ :=
    ⟨⟨hm1, hm2, hd1, hd2, hy1, hy2⟩, hnano, ho1, ho2, hr1, hr2⟩
  simp only [coordsOf, startTsOf, startDateOf] at hstart
  have hdate : (⟨y, m, d⟩ : Date) = ⟨y, 3 * quarterOf m - 2, 1⟩ :=
    congrArg (fun t => t.ldt.date) hstart
  have hnano0 : nano = 0 := congrArg (fun t => t.ldt.nano) hstart
  rw [coords_dl y m d nano off hv', coords_dq y m d nano off hv']
  rw [if_pos hnano0]
  simp only [remainingDays, quarterDays, startDateOf, endDateOf]
  rw [hdate]

theorem C9_witness :
    ValidTs ts1999Q2start ∧
      generate_coordinates ts1999Q2start = some (coordsOf ts1999Q2start) ∧
      ts1999Q2start = (coordsOf ts1999Q2start).start_of_quarter ∧
      (coordsOf ts1999Q2start).days_left_in_quarter =
        (coordsOf ts1999Q2start).days_in_quarter + 1 :=
  ⟨by decide, by decide, by decide,
    C9_first_instant_off_by_one ts1999Q2start (coordsOf ts1999Q2start)
      (by decide) (by decide) (by decide)⟩

/-- C10 (confirmed, implicit claim): days_in_quarter depends only on the
quarter and the year's leapness, for every year and every UTC offset: 90 in
quarter 1 of a leap year and 89 otherwise, 90 in quarter 2, 91 in quarter 3,
and 91 in quarter 4. -/
theorem C10_days_in_by_quarter (ts : DateTimeFO) (c : CorporateCoordinates)
    (hv : ValidTs ts) (h : generate_coordinates ts = some c) :
    (quarterOf ts.ldt.date.month = 1 →
        c.days_in_quarter = if isLeapYear ts.ldt.date.year then 90 else 89) ∧
      (quarterOf ts.ldt.date.month = 2 → c.days_in_quarter = 90) ∧
      (quarterOf ts.ldt.date.month = 3 → c.days_in_quarter = 91) ∧
      (quarterOf ts.ldt.date.month = 4 → c.days_in_quarter = 91) := by
  have hc := generate_some_inv ts c hv h
  subst hc
  obtain ⟨⟨⟨y, m, d⟩, nano⟩, off⟩ := ts
  obtain ⟨⟨hm1, hm2, hd1, hd2, hy1, hy2⟩, hnano, ho1, ho2, hr1, hr2⟩ := hv
  have hv' : ValidTs ⟨⟨⟨y, m, d⟩, nano⟩, off⟩ :=
    ⟨⟨hm1, hm2, hd1, hd2, hy1, hy2⟩, hnano, ho1, ho2, hr1, hr2⟩
  dsimp only at *
  rw [coords_dq y m d nano off hv', quarterDays_eq y m d nano off hm1 hm2]
  refine ⟨fun hq => ?_, fun hq => ?_, fun hq => ?_, fun hq => ?_⟩
  all_goals simp [hq, leapN]
  all_goals split_ifs
  all_goals omega

theorem C10_witness :
    ValidTs ts2000Feb1 ∧ generate_coordinates ts2000Feb1 = some (coordsOf ts2000Feb1) ∧
      ((quarterOf ts2000Feb1.ldt.date.month = 1 →
          (coordsOf ts2000Feb1).days_in_quarter =
            if isLeapYear ts2000Feb1.ldt.date.year then 90 else 89) ∧
        (quarterOf ts2000Feb1.ldt.date.month = 2 →
          (coordsOf ts2000Feb1).days_in_quarter = 90) ∧
        (quarterOf ts2000Feb1.ldt.date.month = 3 →
          (coordsOf ts2000Feb1).days_in_quarter = 91) ∧
        (quarterOf ts2000Feb1.ldt.date.month = 4 →
          (coordsOf ts2000Feb1).days_in_quarter = 91)) :=
  ⟨by decide, by decide,
    C10_days_in_by_quarter ts2000Feb1 (coordsOf ts2000Feb1) (by decide) (by decide)⟩

end CorporateClock
